import Mathlib

/-!
Verification of the producer/consumer lifecycle logic of a Node.js Kafka demo.

The development shallowly embeds the JavaScript sources:
* `src/utils.js` — `parseBrokers`, the broker-address normalizer;
* `src/producer.js` — `produceMessage`: validation, readiness wait, connect,
  single `send` with key/value encoding, unconditional disconnect;
* `src/consumer.js` — `consumeMessages`: validation, abort-signal handling,
  connect/subscribe, the run-loop startup retry loop, the per-message
  dispatch wrapper, and the idempotent `stopConsumer`/`stop` teardown.

JavaScript values relevant to the API surface are modelled by `JsValue`;
broker I/O is modelled by environments (`ProducerEnv`, `ConsumerEnv`) that
fix the outcome of each external call, and each operation returns the
ordered list of external actions it performed alongside its result.
-/

namespace KafkaDemo

/-- Model of a JavaScript `Error`: only the message is observable here. -/
structure JsError where
  msg : String
deriving DecidableEq, Repr

/-- Model of the JavaScript values that can cross this API surface:
primitives, strings, arrays, Buffers (carrying their UTF-8 text content),
and plain objects. -/
inductive JsValue where
  | undef
  | null
  | bool (b : Bool)
  | num (n : Int)
  | str (s : String)
  | arr (elems : List JsValue)
  | buf (content : String)
  | obj (fields : List (String × JsValue))
deriving Repr

/-- JavaScript falsiness (`!v`) for the modelled values: `undefined`, `null`,
`false`, `0` and the empty string are falsy; arrays, Buffers and objects are
always truthy. -/
def jsFalsy : JsValue → Bool
  | .undef => true
  | .null => true
  | .bool b => !b
  | .num n => n == 0
  | .str s => s == ""
  | .arr _ => false
  | .buf _ => false
  | .obj _ => false

mutual
/-- JavaScript `String(v)` conversion for the modelled values. -/
def jsToString : JsValue → String
  | .undef => "undefined"
  | .null => "null"
  | .bool b => if b then "true" else "false"
  | .num n => toString n
  | .str s => s
  | .arr xs => String.intercalate "," (jsToStringElems xs)
  | .buf s => s
  | .obj _ => "[object Object]"

/-- Array elements under `String(...)`: `null`/`undefined` render as `""`. -/
def jsToStringElems : List JsValue → List String
  | [] => []
  | .undef :: vs => "" :: jsToStringElems vs
  | .null :: vs => "" :: jsToStringElems vs
  | v :: vs => jsToString v :: jsToStringElems vs
end

/-- JSON escaping of a single character (the cases relevant here). -/
def escJsonChar (c : Char) : String :=
  if c = '"' then "\\\"" else if c = '\\' then "\\\\"
  else if c = '\n' then "\\n" else if c = '\t' then "\\t"
  else if c = '\r' then "\\r" else String.singleton c

/-- A JSON string literal: the contents escaped and wrapped in quotes. -/
def quoteJson (s : String) : String :=
  "\"" ++ String.join (s.data.map escJsonChar) ++ "\""

mutual
/-- Model of `JSON.stringify`: `undefined` serializes to nothing,
objects and arrays recurse, Buffers expose their `toJSON` form. -/
def jsonStringify : JsValue → Option String
  | .undef => none
  | .null => some "null"
  | .bool b => some (if b then "true" else "false")
  | .num n => some (toString n)
  | .str s => some (quoteJson s)
  | .arr xs => some ("[" ++ String.intercalate "," (jsonStringifyList xs) ++ "]")
  | .buf s => some ("\x7b\"type\":\"Buffer\",\"data\":[" ++
      String.intercalate "," (s.toUTF8.toList.map (fun b => toString b.toNat)) ++ "]\x7d")
  | .obj fs => some ("\x7b" ++ String.intercalate "," (jsonStringifyFields fs) ++ "\x7d")

/-- Array elements under `JSON.stringify`: unserializable entries become `null`. -/
def jsonStringifyList : List JsValue → List String
  | [] => []
  | v :: vs => ((jsonStringify v).getD "null") :: jsonStringifyList vs

/-- Object fields under `JSON.stringify`: fields with unserializable values
are dropped. -/
def jsonStringifyFields : List (String × JsValue) → List String
  | [] => []
  | (k, v) :: fs =>
    match jsonStringify v with
    | none => jsonStringifyFields fs
    | some sv => (quoteJson k ++ ":" ++ sv) :: jsonStringifyFields fs
end

/-! ## Broker-address normalizer (`src/utils.js` `parseBrokers`) -/

/-- Model of `String.prototype.split(',')` over the character list: always returns at
least one (possibly empty) part, and empty parts between commas survive. -/
def jsSplitComma : List Char → List (List Char)
  | [] => [[]]
  | c :: cs =>
    match jsSplitComma cs with
    | [] => [[]]
    | p :: ps => if c = ',' then [] :: p :: ps else (c :: p) :: ps

/-- Model of `String.prototype.trim()`: whitespace dropped from both ends. -/
def jsTrim (cs : List Char) : List Char :=
  ((cs.dropWhile Char.isWhitespace).reverse.dropWhile Char.isWhitespace).reverse

/-- Whether the second list starts with the first. -/
def startsWithL : List Char → List Char → Bool
  | [], _ => true
  | _ :: _, [] => false
  | p :: ps, c :: cs => p == c && startsWithL ps cs

/-- Model of the `replace` call with the anchored scheme pattern: one leading scheme marker removed. -/
def stripPlaintext (cs : List Char) : List Char :=
  if startsWithL "PLAINTEXT://".data cs then cs.drop 12 else cs

/-- Translation of `parseBrokers` from `src/utils.js`: arrays are returned unchanged,
non-strings map to `[]`, and strings are split on `,`, trimmed, stripped of
one leading `PLAINTEXT://`, with empty results dropped (`filter(Boolean)`). -/
def parseBrokers : JsValue → List JsValue
  | .arr xs => xs
  | .str s =>
      (((jsSplitComma s.data).map
          (fun b => stripPlaintext (jsTrim b))).filter
        (fun p => !p.isEmpty)).map (fun p => JsValue.str (String.mk p))
  | _ => []

/-- Modelled from the spec words of §4.1: split on `,`, trim whitespace from
each part, strip a leading `PLAINTEXT://` scheme marker if present, drop
empty results; sequences are returned unchanged; any other input yields the
empty sequence. Stated separately from `parseBrokers` for the refinement
claim. -/
def stripSchemeSpec (cs : List Char) : List Char :=
  if startsWithL "PLAINTEXT://".data cs then cs.drop ("PLAINTEXT://".data.length) else cs

/-- Spec-side restatement of the normalizer contract (§4.1), assembled stage
by stage as the spec phrases it. -/
def parseBrokersSpec : JsValue → List JsValue
  | .arr xs => xs
  | .str s =>
      ((((jsSplitComma s.data).map jsTrim).map stripSchemeSpec).filter
        (fun p => p.length ≠ 0)).map (fun p => JsValue.str (String.mk p))
  | _ => []

/-! ## Shared validation predicates -/

/-- Translation of `!brokers || (Array.isArray(brokers) && brokers.length === 0)`. -/
def brokersMissing (v : JsValue) : Bool :=
  jsFalsy v || (match v with | .arr xs => xs.isEmpty | _ => false)

/-- Parameter defaulting for `topic = 'demo-topic'`: JavaScript default
parameters replace `undefined` only. -/
def defaultTopic (t : JsValue) : JsValue :=
  match t with
  | .undef => .str "demo-topic"
  | x => x

/-- Translation of `typeof message === 'undefined' || message === null`. -/
def messageMissing : JsValue → Bool
  | .undef => true
  | .null => true
  | _ => false

/-! ## Producer session (`src/producer.js` `produceMessage`) -/

/-- The single wire message handed to `producer.send`. -/
structure MsgRecord where
  key : Option String
  value : Option String
deriving DecidableEq, Repr

/-- External actions the producer performs, in order. -/
inductive PAction where
  | adminCheck
  | connect
  | send (record : MsgRecord)
  | disconnect
deriving DecidableEq, Repr

/-- Outcomes of the producer's external calls, fixed by the environment. -/
structure ProducerEnv where
  readiness : Except JsError Unit
  connectResult : Except JsError Unit
  sendResult : Except JsError Unit
  disconnectResult : Except JsError Unit

/-- Translation of `typeof key === 'undefined' ? null : String(key)`. -/
def encodeKey : JsValue → Option String
  | .undef => none
  | k => some (jsToString k)

/-- Translation of `typeof message === 'string' || Buffer.isBuffer(message) ? message :
JSON.stringify(message)`. -/
def encodeValue : JsValue → Option String
  | .str s => some s
  | .buf s => some s
  | m => jsonStringify m

/-- Translation of `produceMessage`: validate, resolve endpoints, wait for readiness,
connect, send one message inside `try`, disconnect inside `finally` (a
disconnect failure replaces the pending send error, as `finally` does). -/
def produceMessage (env : ProducerEnv) (brokers topic message key : JsValue) :
    Except JsError Unit × List PAction :=
  if brokersMissing brokers then (.error ⟨"brokers is required"⟩, [])
  else if jsFalsy (defaultTopic topic) then (.error ⟨"topic is required"⟩, [])
  else if messageMissing message then (.error ⟨"message is required"⟩, [])
  else
    let _endpoints := parseBrokers brokers
    match env.readiness with
    | .error e => (.error e, [.adminCheck])
    | .ok _ =>
      match env.connectResult with
      | .error e => (.error e, [.adminCheck, .connect])
      | .ok _ =>
        let r : MsgRecord := ⟨encodeKey key, encodeValue message⟩
        match env.sendResult, env.disconnectResult with
        | .ok _, .ok _ => (.ok (), [.adminCheck, .connect, .send r, .disconnect])
        | .ok _, .error e => (.error e, [.adminCheck, .connect, .send r, .disconnect])
        | .error e, .ok _ => (.error e, [.adminCheck, .connect, .send r, .disconnect])
        | .error _, .error e2 => (.error e2, [.adminCheck, .connect, .send r, .disconnect])

/-! ## Consumer session (`src/consumer.js` `consumeMessages`) -/

/-- Observable steps of a consumer session, in order. -/
inductive CAction where
  | connect
  | subscribe
  | coordinatorWait
  | runAttempt (k : Nat)
  | backoffWait (ms : Nat)
  | stopAttempt
  | stopErrorLogged (e : JsError)
  | disconnectAttempt
  | disconnectErrorLogged (e : JsError)
  | runPromiseAwaited
deriving DecidableEq, Repr

/-- Outcomes of the consumer's external calls: `runResults k` is the
synchronous outcome of the `k`-th `consumer.run` call, `runOutcome` is what
the run-loop promise eventually settles with. -/
structure ConsumerEnv where
  connectResult : Except JsError Unit
  subscribeResult : Except JsError Unit
  runResults : Nat → Except JsError Unit
  stopResult : Except JsError Unit
  disconnectResult : Except JsError Unit
  runOutcome : Except JsError Unit

/-- Translation of `stopConsumer`: a no-op when `running` is already false; otherwise clear
the flag, attempt `consumer.stop()` then `consumer.disconnect()`, logging and
swallowing a failure of either step. The total return type records that it
never re-raises. -/
def stopConsumer (running : Bool) (env : ConsumerEnv) : Bool × List CAction :=
  if running then
    (false,
      (match env.stopResult with
       | .ok _ => [CAction.stopAttempt]
       | .error e => [CAction.stopAttempt, CAction.stopErrorLogged e]) ++
      (match env.disconnectResult with
       | .ok _ => [CAction.disconnectAttempt]
       | .error e => [CAction.disconnectAttempt, CAction.disconnectErrorLogged e]))
  else (running, [])

/-- The returned `stop`: run `stopConsumer`, then await `runPromise` with any
rejection ignored (awaiting `undefined` also resolves). -/
def stopFn (running : Bool) (_runPromise : Option (Except JsError Unit))
    (env : ConsumerEnv) : Bool × List CAction :=
  ((stopConsumer running env).1,
   (stopConsumer running env).2 ++ [CAction.runPromiseAwaited])

/-- When the supplied `AbortSignal`'s abort is delivered to this session.
The signal is checked at invocation (`signal.aborted`) and a once-only
listener running `stopConsumer` is registered, so the abort event can fire
during any later await: the connect, the subscribe, the 5-second coordinator
wait, or a backoff wait inside the startup retry loop. `duringBackoff k`
fires during the backoff that follows the `k`-th failure (`k` is the
`retries` counter after its increment); if that backoff never occurs the
event never fires before the handle is returned. `never` covers a signal
that aborts only after the handle is returned, or not at all — either way
it cannot affect the returned handle. -/
inductive AbortPoint where
  | atInvocation
  | duringConnect
  | duringSubscribe
  | duringCoordinatorWait
  | duringBackoff (k : Nat)
  | never
deriving DecidableEq, Repr

/-- The run-loop startup retry loop (`while (retries < maxRetries && running)`)
with `fuel = maxRetries - retries` and `attempt` the number of failures so
far. The only suspension point inside the loop is the backoff wait, during
which the abort listener may fire (`abortDuringBackoff`), running
`stopConsumer`, so that the re-checked loop condition fails. Returns
`.ok (some k)` when attempt `k` started the loop, `.ok none` when the loop
exited without assigning `runPromise`, `.error e` when the retry budget was
exhausted; plus the actions performed and the `running` flag afterwards. -/
def runRetryLoop (env : ConsumerEnv) (abortDuringBackoff : Option Nat)
    (running : Bool) (attempt : Nat) :
    Nat → Except JsError (Option Nat) × List CAction × Bool
  | 0 => (.ok none, [], running)
  | fuel + 1 =>
    if running then
      match env.runResults attempt with
      | .ok _ => (.ok (some attempt), [.runAttempt attempt], running)
      | .error e =>
        if fuel = 0 then (.error e, [.runAttempt attempt], running)
        else if abortDuringBackoff = some (attempt + 1) then
          (.ok none,
           .runAttempt attempt :: .backoffWait (2000 * (attempt + 1)) ::
             (stopConsumer running env).2,
           (stopConsumer running env).1)
        else
          ((runRetryLoop env abortDuringBackoff running (attempt + 1) fuel).1,
            .runAttempt attempt :: .backoffWait (2000 * (attempt + 1)) ::
              (runRetryLoop env abortDuringBackoff running (attempt + 1) fuel).2.1,
            (runRetryLoop env abortDuringBackoff running (attempt + 1) fuel).2.2)
    else (.ok none, [], running)

/-- The session handle's observable state: `runPromise` is `none` exactly
when the JavaScript value is `undefined`, and `some o` when it is the run
promise, which settles with `o`. -/
structure Session where
  runPromise : Option (Except JsError Unit)
  running : Bool
deriving Repr

/-- One awaited startup step (connect, subscribe, or the coordinator wait):
the step's action is recorded, and when the abort event fires during this
await (`fires`), the listener runs `stopConsumer` before the flow resumes. -/
def startupStep (env : ConsumerEnv) (fires : Bool) (running : Bool)
    (act : CAction) (ev : List CAction) : Bool × List CAction :=
  if fires then
    ((stopConsumer running env).1, ev ++ act :: (stopConsumer running env).2)
  else (running, ev ++ [act])

/-- Translation of `consumeMessages`: validate brokers and (defaulted) topic;
when a signal is supplied, stop immediately if it is already aborted and
register the abort listener (which runs `stopConsumer` whenever the abort is
later delivered); then connect, subscribe and wait for the coordinator —
these proceed even when `running` was already cleared — start the run loop
with three retries, and return the `{stop, runPromise}` handle. `signal` is
`none` when no signal was passed and `some pt` for a signal whose abort is
delivered at point `pt`. -/
def consumeMessages (env : ConsumerEnv) (brokers topic : JsValue)
    (signal : Option AbortPoint) : Except JsError Session × List CAction :=
  if brokersMissing brokers then (.error ⟨"brokers is required"⟩, [])
  else if jsFalsy (defaultTopic topic) then (.error ⟨"topic is required"⟩, [])
  else
    let p0 : Bool × List CAction :=
      match signal with
      | some .atInvocation => stopConsumer true env
      | _ => (true, [])
    let p1 := startupStep env (signal == some AbortPoint.duringConnect)
      p0.1 CAction.connect p0.2
    match env.connectResult with
    | .error e => (.error e, p1.2)
    | .ok _ =>
      let p2 := startupStep env (signal == some AbortPoint.duringSubscribe)
        p1.1 CAction.subscribe p1.2
      match env.subscribeResult with
      | .error e => (.error e, p2.2)
      | .ok _ =>
        let p3 := startupStep env (signal == some AbortPoint.duringCoordinatorWait)
          p2.1 CAction.coordinatorWait p2.2
        let abortK : Option Nat :=
          match signal with
          | some (.duringBackoff k) => some k
          | _ => none
        let rr := runRetryLoop env abortK p3.1 0 3
        match rr.1 with
        | .error e => (.error e, p3.2 ++ rr.2.1)
        | .ok rp =>
          (.ok { runPromise := rp.map (fun _ => env.runOutcome), running := rr.2.2 },
            p3.2 ++ rr.2.1)

/-! ## Per-message dispatch (`eachMessage` wrapper) -/

/-- The payload handed to `eachMessage`. -/
structure Payload where
  topic : String
  partition : Int
  key : Option String
  value : Option String
deriving DecidableEq, Repr

/-- Where a delivered message went: the caller-supplied handler, or the
default stdout logger. -/
inductive Dispatch where
  | handler (p : Payload)
  | defaultLog (topic : String) (partition : Int) (key : Option String) (value : Option String)
deriving DecidableEq, Repr

/-- The `eachMessage` wrapper installed by `consumeMessages`: returns without
dispatching when `running` is false, otherwise forwards to the caller's
handler when one was supplied and to the default logger otherwise. -/
def eachMessageWrapper (running : Bool) (customHandler : Bool) (p : Payload) :
    Option Dispatch :=
  if !running then none
  else if customHandler then some (.handler p)
  else some (.defaultLog p.topic p.partition p.key p.value)

/-- Events observed by the broker client's run loop: a message delivery, or
the `running` flag being cleared by `stopConsumer`. -/
inductive RunEvent where
  | deliver (p : Payload)
  | runningCleared
deriving DecidableEq, Repr

/-- Sequential replay of the run loop: each delivery passes through the
wrapper with the `running` flag current at that point; the collected list is
every dispatch that reached a handler, in order. -/
def dispatchLoop (customHandler : Bool) : Bool → List RunEvent → List Dispatch
  | _, [] => []
  | running, .deliver p :: rest =>
    (match eachMessageWrapper running customHandler p with
     | some d => [d]
     | none => []) ++ dispatchLoop customHandler running rest
  | _, .runningCleared :: rest => dispatchLoop customHandler false rest

/-! ## Concrete environments used by witnesses and counterexamples -/

/-- Producer environment in which every external call succeeds. -/
def envAllOkP : ProducerEnv := ⟨.ok (), .ok (), .ok (), .ok ()⟩

/-- Producer environment in which only the send fails. -/
def envSendFails : ProducerEnv := ⟨.ok (), .ok (), .error ⟨"send exploded"⟩, .ok ()⟩

/-- Consumer environment in which every external call succeeds. -/
def envAllOkC : ConsumerEnv := ⟨.ok (), .ok (), fun _ => .ok (), .ok (), .ok (), .ok ()⟩

/-- Consumer environment in which both teardown steps fail. -/
def envTearFails : ConsumerEnv :=
  ⟨.ok (), .ok (), fun _ => .ok (), .error ⟨"stop failure"⟩,
   .error ⟨"disconnect failure"⟩, .ok ()⟩

/-- Consumer environment in which every `consumer.run` call throws. -/
def envRunFails : ConsumerEnv :=
  ⟨.ok (), .ok (), fun _ => .error ⟨"run failed"⟩, .ok (), .ok (), .ok ()⟩

/-! ## Helper lemmas -/

/-- Once the `running` flag is false, the wrapper dispatches nothing, for any
sequence of further deliveries. -/
lemma dispatchLoop_not_running (customHandler : Bool) :
    ∀ evs, dispatchLoop customHandler false evs = [] := by
  intro evs
  induction evs with
  | nil => rfl
  | cons e rest ih =>
    cases e with
    | deliver p => simp [dispatchLoop, eachMessageWrapper, ih]
    | runningCleared => simp [dispatchLoop, ih]

/-! ## Claims -/

/-- Claim C1: `stop()` is idempotent and always completes. Starting from a
running session, the first call clears the flag and attempts the run-loop
stop and then the disconnect, in that order; a failure of either step is
logged (it appears in the action list as a logged error) and swallowed (the
call still returns its result instead of re-raising). A second call, made
while the session is no longer running, performs no teardown step and still
resolves. -/
theorem consumer_stop_idempotent_total (env : ConsumerEnv)
    (rp : Option (Except JsError Unit)) :
    (stopFn true rp env).1 = false
  ∧ (∃ l₁ l₂, (stopFn true rp env).2 =
      CAction.stopAttempt :: l₁ ++ CAction.disconnectAttempt :: l₂)
  ∧ (∀ e, env.stopResult = Except.error e →
      CAction.stopErrorLogged e ∈ (stopFn true rp env).2)
  ∧ (∀ e, env.disconnectResult = Except.error e →
      CAction.disconnectErrorLogged e ∈ (stopFn true rp env).2)
  ∧ stopFn false rp env = (false, [CAction.runPromiseAwaited]) := by
  refine ⟨by simp [stopFn, stopConsumer], ?_, ?_, ?_, by simp [stopFn, stopConsumer]⟩
  · cases hs : env.stopResult <;> cases hd : env.disconnectResult <;>
      simp only [stopFn, stopConsumer, hs, hd, if_true, List.append_assoc,
        List.cons_append, List.nil_append]
    · exact ⟨[CAction.stopErrorLogged _],
        [CAction.disconnectErrorLogged _, CAction.runPromiseAwaited], rfl⟩
    · exact ⟨[CAction.stopErrorLogged _], [CAction.runPromiseAwaited], rfl⟩
    · exact ⟨[], [CAction.disconnectErrorLogged _, CAction.runPromiseAwaited], rfl⟩
    · exact ⟨[], [CAction.runPromiseAwaited], rfl⟩
  · intro e he
    cases hd : env.disconnectResult <;> simp [stopFn, stopConsumer, he, hd]
  · intro e he
    cases hs : env.stopResult <;> simp [stopFn, stopConsumer, he, hs]

/-- Claim C1 witness: with both teardown steps failing, the first call logs
both errors, and the second call is the no-op that still resolves. -/
theorem consumer_stop_idempotent_total_witness :
    CAction.stopErrorLogged ⟨"stop failure"⟩ ∈ (stopFn true none envTearFails).2
  ∧ CAction.disconnectErrorLogged ⟨"disconnect failure"⟩ ∈ (stopFn true none envTearFails).2
  ∧ stopFn false none envTearFails = (false, [CAction.runPromiseAwaited]) :=
  ⟨(consumer_stop_idempotent_total envTearFails none).2.2.1 _ rfl,
   (consumer_stop_idempotent_total envTearFails none).2.2.2.1 _ rfl,
   (consumer_stop_idempotent_total envTearFails none).2.2.2.2⟩

/-- Claim C2: once the `running` flag has been cleared, no later delivery by
the broker client's run loop reaches any handler: replaying any event
sequence, everything dispatched is already dispatched before the
`runningCleared` event, and a delivery sequence replayed with the flag false
dispatches nothing at all. In the sequential replay an in-flight dispatch
(one occurring before the event) is unaffected. -/
theorem no_dispatch_after_running_cleared (customHandler r : Bool)
    (pre post : List RunEvent) :
    dispatchLoop customHandler r (pre ++ RunEvent.runningCleared :: post) =
      dispatchLoop customHandler r pre
  ∧ dispatchLoop customHandler false post = [] := by
  refine ⟨?_, dispatchLoop_not_running customHandler post⟩
  induction pre generalizing r with
  | nil => simp [dispatchLoop, dispatchLoop_not_running]
  | cons e rest ih =>
    cases e with
    | deliver p => simp [dispatchLoop, ih]
    | runningCleared => simp [dispatchLoop, ih]

/-- Claim C3: when every `consumer.run` call throws synchronously, the
session makes exactly three run attempts, waits 2000 ms and then 4000 ms
between consecutive attempts (attempt-number × 2000), rejects with the error
of the third attempt, and never returns a session handle (it never reaches
`Running`). -/
theorem run_startup_retries_exhausted (errs : Nat → JsError)
    (sr dr ro : Except JsError Unit) (b t : JsValue)
    (hb : brokersMissing b = false) (ht : jsFalsy (defaultTopic t) = false) :
    consumeMessages ⟨.ok (), .ok (), fun k => .error (errs k), sr, dr, ro⟩ b t none =
      (.error (errs 2),
       [CAction.connect, CAction.subscribe, CAction.coordinatorWait,
        CAction.runAttempt 0, CAction.backoffWait 2000,
        CAction.runAttempt 1, CAction.backoffWait 4000,
        CAction.runAttempt 2]) := by
  simp [consumeMessages, hb, ht, startupStep, runRetryLoop]

/-- Claim C3 witness: concrete always-failing environment, valid brokers and
topic. -/
theorem run_startup_retries_exhausted_witness :
    consumeMessages envRunFails (JsValue.arr [JsValue.str "b:1"]) (JsValue.str "t") none =
      (.error ⟨"run failed"⟩,
       [CAction.connect, CAction.subscribe, CAction.coordinatorWait,
        CAction.runAttempt 0, CAction.backoffWait 2000,
        CAction.runAttempt 1, CAction.backoffWait 4000,
        CAction.runAttempt 2]) :=
  run_startup_retries_exhausted (fun _ => ⟨"run failed"⟩) (.ok ()) (.ok ()) (.ok ())
    (JsValue.arr [JsValue.str "b:1"]) (JsValue.str "t") rfl rfl

/-- Helper for claims C5 and C6: whatever the environment does, any record
handed to `producer.send` is exactly the encoded key/value pair. -/
lemma produce_send_record (env : ProducerEnv) (b t m k : JsValue) (r : MsgRecord)
    (h : PAction.send r ∈ (produceMessage env b t m k).2) :
    r = ⟨encodeKey k, encodeValue m⟩ := by
  by_cases hb : brokersMissing b
  · simp [produceMessage, hb] at h
  by_cases ht : jsFalsy (defaultTopic t)
  · simp [produceMessage, hb, ht] at h
  by_cases hm : messageMissing m
  · simp [produceMessage, hb, ht, hm] at h
  cases hrd : env.readiness with
  | error e => simp [produceMessage, hb, ht, hm, hrd] at h
  | ok u =>
    cases hc : env.connectResult with
    | error e => simp [produceMessage, hb, ht, hm, hrd, hc] at h
    | ok u2 =>
      cases hsnd : env.sendResult <;> cases hd : env.disconnectResult <;>
        simp [produceMessage, hb, ht, hm, hrd, hc, hsnd, hd] at h <;>
        exact h

/-- Claim C4 counterexample: an absent (`undefined`) topic does not raise
`topic is required` — JavaScript default parameters replace it with
`demo-topic`, validation passes, and the producer proceeds to connect. -/
theorem producer_absent_topic_passes_validation :
    (produceMessage envAllOkP (JsValue.arr [JsValue.str "b:1"]) JsValue.undef
        (JsValue.str "x") JsValue.undef).1 = Except.ok ()
  ∧ PAction.connect ∈ (produceMessage envAllOkP (JsValue.arr [JsValue.str "b:1"])
        JsValue.undef (JsValue.str "x") JsValue.undef).2 :=
  ⟨rfl, List.Mem.tail _ (List.Mem.head _)⟩

/-- Claim C4 as amended: validation occurs before any broker I/O (the action
trace is empty on every failure path) with distinct error kinds, checked in
order — an absent or empty endpoint list raises `brokers is required`; an
empty (or otherwise falsy, e.g. `null`) topic raises `topic is required`,
while an absent topic is replaced by the default `demo-topic` and passes
validation; an absent (`undefined`) or `null` message raises
`message is required`. -/
theorem produce_validation_fails_fast (env : ProducerEnv) (b t m k : JsValue) :
    (brokersMissing b = true →
      produceMessage env b t m k = (.error ⟨"brokers is required"⟩, []))
  ∧ (brokersMissing b = false → jsFalsy (defaultTopic t) = true →
      produceMessage env b t m k = (.error ⟨"topic is required"⟩, []))
  ∧ (brokersMissing b = false → jsFalsy (defaultTopic t) = false →
      messageMissing m = true →
      produceMessage env b t m k = (.error ⟨"message is required"⟩, []))
  ∧ defaultTopic JsValue.undef = JsValue.str "demo-topic" := by
  refine ⟨fun hb => ?_, fun hb ht => ?_, fun hb ht hm => ?_, rfl⟩
  · simp [produceMessage, hb]
  · simp [produceMessage, hb, ht]
  · simp [produceMessage, hb, ht, hm]

/-- Claim C4 witness: all three validation failures at concrete inputs. -/
theorem produce_validation_fails_fast_witness :
    produceMessage envAllOkP JsValue.undef (JsValue.str "t") (JsValue.str "x")
        JsValue.undef = (.error ⟨"brokers is required"⟩, [])
  ∧ produceMessage envAllOkP (JsValue.arr [JsValue.str "b:1"]) (JsValue.str "")
        (JsValue.str "x") JsValue.undef = (.error ⟨"topic is required"⟩, [])
  ∧ produceMessage envAllOkP (JsValue.arr [JsValue.str "b:1"]) (JsValue.str "t")
        JsValue.null JsValue.undef = (.error ⟨"message is required"⟩, []) :=
  ⟨(produce_validation_fails_fast envAllOkP JsValue.undef (JsValue.str "t")
      (JsValue.str "x") JsValue.undef).1 rfl,
   (produce_validation_fails_fast envAllOkP (JsValue.arr [JsValue.str "b:1"])
      (JsValue.str "") (JsValue.str "x") JsValue.undef).2.1 rfl rfl,
   (produce_validation_fails_fast envAllOkP (JsValue.arr [JsValue.str "b:1"])
      (JsValue.str "t") JsValue.null JsValue.undef).2.2.1 rfl rfl rfl⟩

/-- Claim C5: on every valid call, the single wire record carries a key that
is the string form of the supplied key — `null` becomes the literal string
`"null"` — and the absent marker (never an empty string) when no key is
supplied; the value is transmitted as-is when it is a string or raw bytes,
and is otherwise the `JSON.stringify` text. -/
theorem producer_wire_encoding (env : ProducerEnv) (b t m k : JsValue)
    (r : MsgRecord) (h : PAction.send r ∈ (produceMessage env b t m k).2) :
    (k = JsValue.undef → r.key = none)
  ∧ (k ≠ JsValue.undef → r.key = some (jsToString k))
  ∧ jsToString JsValue.null = "null"
  ∧ (∀ s, m = JsValue.str s → r.value = some s)
  ∧ (∀ s, m = JsValue.buf s → r.value = some s)
  ∧ ((∀ s, m ≠ JsValue.str s) → (∀ s, m ≠ JsValue.buf s) →
      r.value = jsonStringify m) := by
  have hr := produce_send_record env b t m k r h
  subst hr
  refine ⟨fun hk => ?_, fun hk => ?_, rfl, fun s hm => ?_, fun s hm => ?_,
    fun h1 h2 => ?_⟩
  · subst hk; rfl
  · cases k <;> first | rfl | exact absurd rfl hk
  · subst hm; rfl
  · subst hm; rfl
  · cases m <;> first
      | rfl
      | exact absurd rfl (h1 _)
      | exact absurd rfl (h2 _)

/-- The spec's example message `{a: 1}`. -/
def msgObjA1 : JsValue := JsValue.obj [("a", JsValue.num 1)]

/-- Claim C5 witness: sending `{a:1}` with no key transmits the JSON text
form as value and the absent marker as key. -/
theorem producer_wire_encoding_witness :
    (⟨none, some "\x7b\"a\":1\x7d"⟩ : MsgRecord).key = none
  ∧ (⟨none, some "\x7b\"a\":1\x7d"⟩ : MsgRecord).value = jsonStringify msgObjA1
  ∧ jsonStringify msgObjA1 = some "\x7b\"a\":1\x7d" := by
  have h := producer_wire_encoding envAllOkP (JsValue.arr [JsValue.str "b:1"])
    (JsValue.str "t") msgObjA1 JsValue.undef ⟨none, some "\x7b\"a\":1\x7d"⟩
    (List.Mem.tail _ (List.Mem.tail _ (List.Mem.head _)))
  exact ⟨h.1 rfl,
    h.2.2.2.2.2 (fun s hs => JsValue.noConfusion hs) (fun s hs => JsValue.noConfusion hs),
    rfl⟩

/-- Claim C6: once the producer's connect succeeds, the action trace is
exactly readiness-check, connect, send, disconnect — the disconnect happens
on the success path and on the failure path alike (the `finally` block) —
and when the send fails, its error is what the caller receives, after the
disconnect has been performed (it is the last action of the trace). -/
theorem producer_disconnect_on_all_paths (env : ProducerEnv) (b t m k : JsValue)
    (hcm : PAction.connect ∈ (produceMessage env b t m k).2)
    (hok : env.connectResult = Except.ok ()) :
    (produceMessage env b t m k).2 =
      [PAction.adminCheck, PAction.connect,
       PAction.send ⟨encodeKey k, encodeValue m⟩, PAction.disconnect]
  ∧ ∀ e, env.sendResult = Except.error e → env.disconnectResult = Except.ok () →
      (produceMessage env b t m k).1 = Except.error e := by
  by_cases hb : brokersMissing b
  · simp [produceMessage, hb] at hcm
  by_cases ht : jsFalsy (defaultTopic t)
  · simp [produceMessage, hb, ht] at hcm
  by_cases hm : messageMissing m
  · simp [produceMessage, hb, ht, hm] at hcm
  cases hrd : env.readiness with
  | error e => simp [produceMessage, hb, ht, hm, hrd] at hcm
  | ok u =>
    cases hsnd : env.sendResult <;> cases hd : env.disconnectResult <;>
      refine ⟨by simp [produceMessage, hb, ht, hm, hrd, hok, hsnd, hd],
        fun e he hdok => ?_⟩ <;>
      simp_all [produceMessage, hb, ht, hm, hrd, hok]

/-- Claim C6 witness: a failing send still ends with a disconnect, and its
error is what propagates. -/
theorem producer_disconnect_on_all_paths_witness :
    (produceMessage envSendFails (JsValue.arr [JsValue.str "b:1"]) (JsValue.str "t")
        (JsValue.str "x") JsValue.undef).2 =
      [PAction.adminCheck, PAction.connect,
       PAction.send ⟨none, some "x"⟩, PAction.disconnect]
  ∧ (produceMessage envSendFails (JsValue.arr [JsValue.str "b:1"]) (JsValue.str "t")
        (JsValue.str "x") JsValue.undef).1 = Except.error ⟨"send exploded"⟩ := by
  have h := producer_disconnect_on_all_paths envSendFails
    (JsValue.arr [JsValue.str "b:1"]) (JsValue.str "t") (JsValue.str "x")
    JsValue.undef (List.Mem.tail _ (List.Mem.head _)) rfl
  exact ⟨h.1, h.2 ⟨"send exploded"⟩ rfl rfl⟩

/-- Claim C7: the normalizer agrees with the spec's stage-by-stage
description on every input: strings are split on `,`, trimmed, stripped of
one leading `PLAINTEXT://`, with empty results dropped; arrays pass through;
every other value yields the empty sequence. -/
theorem parseBrokers_matches_spec (v : JsValue) :
    parseBrokers v = parseBrokersSpec v := by
  cases v <;> try rfl
  case str s =>
    have hmap : ((jsSplitComma s.data).map jsTrim).map stripSchemeSpec =
        (jsSplitComma s.data).map (fun b => stripPlaintext (jsTrim b)) := by
      rw [List.map_map]; rfl
    simp only [parseBrokers, parseBrokersSpec]
    rw [hmap]
    congr 1
    apply List.filter_congr
    intro p _
    cases p <;> simp

/-- Claim C8 counterexample: the invariant fails for sequence inputs — an
array containing the empty string is returned unchanged, so the output has
an empty entry. -/
theorem parseBrokers_array_empty_entry :
    parseBrokers (JsValue.arr [JsValue.str ""]) = [JsValue.str ""] := rfl

/-- Claim C8 as amended: for string inputs, every output entry is a
non-empty string obtained from some comma-separated part by trimming and
stripping one leading `PLAINTEXT://`; sequence inputs are returned unchanged
with no validation of individual entries, so the no-empty-entries invariant
is not enforced for them. -/
theorem parseBrokers_string_entries_nonempty (s : String) (x : JsValue)
    (hx : x ∈ parseBrokers (JsValue.str s)) :
    (∃ p, p ∈ jsSplitComma s.data ∧
        x = JsValue.str (String.mk (stripPlaintext (jsTrim p))) ∧
        stripPlaintext (jsTrim p) ≠ [])
  ∧ ∀ xs, parseBrokers (JsValue.arr xs) = xs := by
  refine ⟨?_, fun xs => rfl⟩
  simp only [parseBrokers, List.mem_map, List.mem_filter] at hx
  obtain ⟨p, ⟨⟨q, hq, hqp⟩, hne⟩, rfl⟩ := hx
  subst hqp
  exact ⟨q, hq, rfl, fun hEq => by simp [hEq] at hne⟩

/-- Claim C8 witness: the single entry produced from `PLAINTEXT://a:1`. -/
theorem parseBrokers_string_entries_nonempty_witness :
    (∃ p, p ∈ jsSplitComma "PLAINTEXT://a:1".data ∧
        JsValue.str "a:1" = JsValue.str (String.mk (stripPlaintext (jsTrim p))) ∧
        stripPlaintext (jsTrim p) ≠ [])
  ∧ ∀ xs, parseBrokers (JsValue.arr xs) = xs :=
  parseBrokers_string_entries_nonempty "PLAINTEXT://a:1" (JsValue.str "a:1")
    (List.Mem.head _)

/-- Helper for claim C9: with the session still running, no abort firing
during a backoff, and positive fuel, the retry loop never exits with
`runPromise` unassigned — it either starts the loop on some attempt or
exhausts the budget with an error. -/
lemma runRetryLoop_no_abort_defined (env : ConsumerEnv) :
    ∀ fuel a, fuel ≠ 0 → (runRetryLoop env none true a fuel).1 ≠ Except.ok none := by
  intro fuel
  induction fuel with
  | zero => intro a h; exact absurd rfl h
  | succ f ih =>
    intro a _
    simp only [runRetryLoop, if_true]
    cases hr : env.runResults a with
    | ok u => simp
    | error e =>
      by_cases hf : f = 0
      · simp [hf]
      · simpa [hf] using ih (a + 1) hf

/-- Claim C9 counterexample: when the supplied cancellation signal is
already aborted at invocation time, `consumeMessages` still returns a
session handle, but its `runPromise` field is the JavaScript `undefined`
(`none` here), not a promise — the run loop was never started. -/
theorem preaborted_signal_runPromise_missing :
    consumeMessages envAllOkC (JsValue.arr [JsValue.str "b:1"]) (JsValue.str "t")
        (some AbortPoint.atInvocation) =
      (Except.ok ⟨none, false⟩,
       [CAction.stopAttempt, CAction.disconnectAttempt, CAction.connect,
        CAction.subscribe, CAction.coordinatorWait]) := rfl

/-- Claim C9 as amended: when no cancellation signal is supplied, every
returned session handle carries an actual run-loop promise — `runPromise` is
`some` of the loop's completion outcome (normal resolution on clean exit,
the terminal error on failure), never `undefined`. When a supplied signal's
abort is delivered before the startup retry loop runs — already aborted at
invocation, or fired during the connect, the subscribe, or the coordinator
wait — the handle is still returned, but its `runPromise` is `undefined`,
because the loop is skipped while `running` is false and `runPromise` is
never assigned. -/
theorem runPromise_defined_iff_loop_started (env : ConsumerEnv)
    (b t : JsValue) (sig : Option AbortPoint) (s : Session)
    (h : (consumeMessages env b t sig).1 = Except.ok s) :
    (sig = none → s.runPromise = some env.runOutcome)
  ∧ (sig = some AbortPoint.atInvocation ∨ sig = some AbortPoint.duringConnect ∨
      sig = some AbortPoint.duringSubscribe ∨
      sig = some AbortPoint.duringCoordinatorWait →
      s.runPromise = none) := by
  by_cases hb : brokersMissing b
  · simp [consumeMessages, hb] at h
  by_cases ht : jsFalsy (defaultTopic t)
  · simp [consumeMessages, hb, ht] at h
  constructor
  · intro hsig
    subst hsig
    have e1 : ((none : Option AbortPoint) == some AbortPoint.duringConnect) = false := rfl
    have e2 : ((none : Option AbortPoint) == some AbortPoint.duringSubscribe) = false := rfl
    have e3 : ((none : Option AbortPoint) == some AbortPoint.duringCoordinatorWait) = false := rfl
    simp only [consumeMessages, hb, ht, Bool.false_eq_true, if_false,
      startupStep, e1, e2, e3, List.nil_append] at h
    cases hc : env.connectResult with
    | error e => simp [hc] at h
    | ok u =>
      cases hs2 : env.subscribeResult with
      | error e => simp [hc, hs2] at h
      | ok u2 =>
        rcases hrr : runRetryLoop env none true 0 3 with ⟨out, racts, rf⟩
        rw [hrr] at h
        cases out with
        | error e => simp [hc, hs2] at h
        | ok rp =>
          cases rp with
          | none =>
            have hdef := runRetryLoop_no_abort_defined env 3 0 (by decide)
            rw [hrr] at hdef
            exact absurd rfl hdef
          | some kk =>
            simp [hc, hs2] at h
            rw [← h]
  · intro hsig
    rcases hsig with h1 | h1 | h1 | h1 <;> subst h1 <;>
      simp only [consumeMessages, hb, ht, Bool.false_eq_true, if_false,
        startupStep, stopConsumer] at h <;>
      cases hc : env.connectResult <;> simp only [hc] at h <;>
      try cases hs2 : env.subscribeResult <;> simp only [hs2] at h
    all_goals
      (simp only [runRetryLoop, if_true, Bool.false_eq_true, if_false,
        Option.map_none, reduceCtorEq] at h <;> simp_all)
    all_goals exact h ▸ rfl

/-- Claim C9 witness for the amended statement: with a healthy environment,
no signal gives a handle whose `runPromise` settles with the loop's outcome,
while an abort delivered during the coordinator wait gives a handle with
`runPromise` undefined. -/
theorem runPromise_defined_iff_loop_started_witness :
    (Session.mk (some (Except.ok ())) true).runPromise = some envAllOkC.runOutcome
  ∧ (Session.mk (none : Option (Except JsError Unit)) false).runPromise = none :=
  ⟨(runPromise_defined_iff_loop_started envAllOkC (JsValue.arr [JsValue.str "b:1"])
      (JsValue.str "t") none ⟨some (Except.ok ()), true⟩ rfl).1 rfl,
   (runPromise_defined_iff_loop_started envAllOkC (JsValue.arr [JsValue.str "b:1"])
      (JsValue.str "t") (some AbortPoint.duringCoordinatorWait) ⟨none, false⟩ rfl).2
     (Or.inr (Or.inr (Or.inr rfl)))⟩

/-- Claim C10: the empty-string broker list is falsy, so both entry points
reject it with `brokers is required` before any external action (the action
trace is empty, so the normalizer result is never used and no connection is
attempted) — even though `parseBrokers` itself would map it to the empty
sequence. -/
theorem empty_string_brokers_rejected (envP : ProducerEnv) (envC : ConsumerEnv)
    (t m k : JsValue) (sig : Option AbortPoint) :
    produceMessage envP (JsValue.str "") t m k =
      (.error ⟨"brokers is required"⟩, [])
  ∧ consumeMessages envC (JsValue.str "") t sig =
      (.error ⟨"brokers is required"⟩, [])
  ∧ parseBrokers (JsValue.str "") = [] :=
  ⟨rfl, rfl, rfl⟩

end KafkaDemo
